import Mathlib

/-!
Verification development for the Trade-Finder screening pipeline
(`main.py`): universe acquisition, per-ticker indicator computation
(EMA / SMA / RSI / MACD / ATR) and the multi-gate bullish decision.

The embedding below translates the Python source into Lean.  Prices and
volumes are modelled as exact rationals; pandas NaN propagation is
modelled with `Option` (a missing value makes every comparison gate
evaluate to `false`, exactly as NaN comparisons do in Python).
-/

namespace TradeFinder

/-- One daily bar, as produced by `fetch_daily_bars_df` (columns
`open`, `high`, `low`, `close`, `volume`; the `open` column is never
read by the analysis code and is omitted).  Source: `main.py` 131-146. -/
structure Bar where
  high : ℚ
  low : ℚ
  close : ℚ
  volume : ℚ
  deriving DecidableEq, Repr, Inhabited

/-- Configuration constants of `main.py` lines 22-39, with the
documented environment defaults. -/
structure Config where
  minDailyVol : ℚ := 300000
  minPrice : ℚ := 2
  allowedExchanges : List String := ["XNYS", "XNAS", "XASE", "ARCX", "BATS"]
  includeTypes : List String := ["CS", "ADRC", "ADRP", "ADRR"]
  excludeTypes : List String := ["ETF", "ETN", "FUND", "SP", "PFD", "WRT", "RIGHT", "UNIT", "REIT"]
  maxTickers : ℕ := 800
  rsiMin : ℚ := 50
  rsiMax : ℚ := 65
  maxExtAboveEma20Pct : ℚ := 8 / 100
  dynamicExtension : Bool := true
  extAtrMult : ℚ := 1 / 2
  require20dHigh : Bool := true
  deriving Repr

/-- The configuration obtained when every environment variable is left
at its default. -/
def defaultConfig : Config := {}

/-- Last `n` elements of a list (pandas `Series.tail(n)`). -/
def takeLast (n : ℕ) (l : List ℚ) : List ℚ := l.drop (l.length - n)

/-- Arithmetic mean (pandas `Series.mean()` on a NaN-free series).
Only ever applied to nonempty lists in the pipeline. -/
def listMean (l : List ℚ) : ℚ := l.sum / l.length

/-- Maximum of a series (pandas `Series.max()` on a NaN-free series).
Only ever applied to nonempty lists in the pipeline. -/
def listMax : List ℚ → ℚ
  | [] => 0
  | h :: t => t.foldl max h

/-- Python `ema(series, window) = series.ewm(span=window, adjust=False).mean()`
(`main.py` line 151): smoothing factor `a = 2/(span+1)`, seeded at the
first element, then `y_t = (1-a)*y_(t-1) + a*x_t`; output has the same
length as the input. -/
def emaList (span : ℚ) : List ℚ → List ℚ
  | [] => []
  | h :: t =>
    let a := 2 / (span + 1)
    t.scanl (fun acc x => (1 - a) * acc + a * x) h

/-- Final value of `sma(series, window) = series.rolling(window).mean()`
(`main.py` line 152): `none` (NaN) when fewer than `window` points
exist, otherwise the mean of the trailing `window` values. -/
def smaLast (window : ℕ) (xs : List ℚ) : Option ℚ :=
  if xs.length < window then none else some (listMean (takeLast window xs))

/-- Consecutive differences, `series.diff()` with the leading NaN
dropped (the NaN head is skipped by `ewm` seeding). -/
def deltas (xs : List ℚ) : List ℚ :=
  (xs.zip xs.tail).map (fun p => p.2 - p.1)

/-- Final value of `x.ewm(alpha=a, adjust=False).mean()`: `none` on an
empty series, otherwise the Wilder-style recursion seeded at the head. -/
def ewmAlphaLast (a : ℚ) : List ℚ → Option ℚ
  | [] => none
  | h :: t => some (t.foldl (fun acc x => (1 - a) * acc + a * x) h)

/-- Final value of `rsi(series, window)` (`main.py` 154-160).  The code
replaces a zero smoothed loss by NaN (`.replace(0, np.nan)`), so the
result is modelled as `none` (NaN) in that case and whenever the series
has fewer than two points; otherwise `100 - 100/(1 + ru/rd)`. -/
def rsiLast (window : ℚ) (xs : List ℚ) : Option ℚ :=
  let ds := deltas xs
  let up := ds.map (fun d => max d 0)
  let down := ds.map (fun d => max (-d) 0)
  match ewmAlphaLast (1 / window) up, ewmAlphaLast (1 / window) down with
  | some ru, some rd =>
    if rd = 0 then none else some (100 - 100 / (1 + ru / rd))
  | _, _ => none

/-- Python `macd(series, fast, slow, signal)` (`main.py` 162-166): the full
histogram series `line - signal` where `line = ema(fast) - ema(slow)`
and `signal = ema(line, signal)`. -/
def macdHistList (fast slow signal : ℚ) (xs : List ℚ) : List ℚ :=
  let line := (emaList fast xs).zipWith (· - ·) (emaList slow xs)
  let sig := emaList signal line
  line.zipWith (· - ·) sig

/-- Final value of the MACD line `ema(fast) - ema(slow)`. -/
def macdLineLast (fast slow : ℚ) (xs : List ℚ) : ℚ :=
  ((emaList fast xs).zipWith (· - ·) (emaList slow xs)).getLastD 0

/-- Final value of the MACD signal line. -/
def macdSignalLast (fast slow signal : ℚ) (xs : List ℚ) : ℚ :=
  (emaList signal ((emaList fast xs).zipWith (· - ·) (emaList slow xs))).getLastD 0

/-- True-range series of `atr` (`main.py` 168-174): elementwise maximum
of `|high-low|`, `|high-prevClose|`, `|low-prevClose|`; on the first row
`prev_close` is NaN and the pandas rowwise `max` skips it, leaving
`|high-low|`. -/
def trList : List Bar → List ℚ
  | [] => []
  | b :: rest =>
    |b.high - b.low| ::
      (b :: rest).zipWith
        (fun prev cur =>
          max |cur.high - cur.low| (max |cur.high - prev.close| |cur.low - prev.close|))
        rest

/-- Final value of `atr(df, window) = tr.rolling(window, min_periods=window).mean()`:
`none` (NaN) while fewer than `window` bars exist. -/
def atrLast (window : ℕ) (bars : List Bar) : Option ℚ :=
  if bars.length < window then none else some (listMean (takeLast window (trList bars)))

/-! ### The local values computed by `analyze_one` (`main.py` 179-247) -/

/-- Python `close = df["close"]`. -/
def closesOf (bars : List Bar) : List ℚ := bars.map Bar.close

/-- Python `vol = df["volume"]`. -/
def volumesOf (bars : List Bar) : List ℚ := bars.map Bar.volume

/-- Python `price = float(close.iloc[-1])` (line 190). -/
def priceOf (bars : List Bar) : ℚ := (closesOf bars).getLastD 0

/-- Python `ema20 = float(ema(close, 20).iloc[-1])` (lines 191-192). -/
def ema20Of (bars : List Bar) : ℚ := (emaList 20 (closesOf bars)).getLastD 0

/-- Python `sma50 = float(sma(close, 50).iloc[-1])` (line 193); NaN is `none`. -/
def sma50Of (bars : List Bar) : Option ℚ := smaLast 50 (closesOf bars)

/-- Python `rsi14 = float(rsi(close, 14).iloc[-1])` (line 194); NaN is `none`. -/
def rsi14Of (bars : List Bar) : Option ℚ := rsiLast 14 (closesOf bars)

/-- Python `macd_v = float(macd_line.iloc[-1])` (lines 196-197). -/
def macdVOf (bars : List Bar) : ℚ := macdLineLast 12 26 (closesOf bars)

/-- Python `signal_v = float(macd_sig.iloc[-1])` (line 198). -/
def signalVOf (bars : List Bar) : ℚ := macdSignalLast 12 26 9 (closesOf bars)

/-- Python `hist_v = float(macd_hist.iloc[-1])` (line 199). -/
def histVOf (bars : List Bar) : ℚ := (macdHistList 12 26 9 (closesOf bars)).getLastD 0

/-- Python `hist_delta = hist_v - hist_prev` with the NaN guard of lines 200-201;
NaN is `none`. -/
def histDeltaOf (bars : List Bar) : Option ℚ :=
  let hist := macdHistList 12 26 9 (closesOf bars)
  if 2 ≤ hist.length then some (hist.getLastD 0 - hist.dropLast.getLastD 0) else none

/-- Python `avg_vol20 = float(vol.tail(20).mean())` (line 203). -/
def avgVol20Of (bars : List Bar) : ℚ := listMean (takeLast 20 (volumesOf bars))

/-- Python `high_20 = float(close.tail(20).max())` (line 204). -/
def high20Of (bars : List Bar) : ℚ := listMax (takeLast 20 (closesOf bars))

/-- Python `is_breakout = price >= high_20 - 1e-9` (line 205). -/
def isBreakoutOf (bars : List Bar) : Bool :=
  decide (priceOf bars ≥ high20Of bars - 1 / 10 ^ 9)

/-- Python `atr20_series = atr(df, window=20)` evaluated at the last bar
(line 209); NaN is `none`. -/
def atr20Of (bars : List Bar) : Option ℚ := atrLast 20 bars

/-- Value `allowed_ext` of lines 207-211: the static cap, raised to
`max(cap, EXT_ATR_MULT * atr20 / ema20)` when `DYNAMIC_EXTENSION` is on,
the last ATR value is not NaN and `ema20 > 0`. -/
def allowedExtOf (cfg : Config) (bars : List Bar) : ℚ :=
  if cfg.dynamicExtension then
    match atr20Of bars with
    | some a =>
      if 0 < ema20Of bars then
        max cfg.maxExtAboveEma20Pct (cfg.extAtrMult * a / ema20Of bars)
      else cfg.maxExtAboveEma20Pct
    | none => cfg.maxExtAboveEma20Pct
  else cfg.maxExtAboveEma20Pct

/-! ### The decision gates of `analyze_one` (`main.py` 213-222)

A pandas NaN compares `False` against any number, so an unavailable
(`none`) indicator makes the corresponding gate fail. -/

/-- Line 213: `price > ema20 > sma50` (chained comparison). -/
def trendGate (bars : List Bar) : Bool :=
  match sma50Of bars with
  | none => false
  | some s => decide (priceOf bars > ema20Of bars ∧ ema20Of bars > s)

/-- Line 215: the extension test `price / max(1e-12, ema20) - 1.0 > allowed_ext`
rejects; this gate holds when it does not reject. -/
def extensionGate (cfg : Config) (bars : List Bar) : Bool :=
  decide (¬ (priceOf bars / max (1 / 10 ^ 12) (ema20Of bars) - 1 > allowedExtOf cfg bars))

/-- Line 217: `RSI_MIN < rsi14 < RSI_MAX` (chained comparison). -/
def rsiGate (cfg : Config) (bars : List Bar) : Bool :=
  match rsi14Of bars with
  | none => false
  | some r => decide (cfg.rsiMin < r ∧ r < cfg.rsiMax)

/-- Line 219: `macd_v > signal_v and hist_v > 0 and (not isnan(hist_delta) and hist_delta > 0)`. -/
def macdGate (bars : List Bar) : Bool :=
  decide (macdVOf bars > signalVOf bars) && decide (histVOf bars > 0) &&
    (match histDeltaOf bars with
     | none => false
     | some hd => decide (hd > 0))

/-- One emitted screener row (`main.py` 230-246).  The numeric fields are
kept exact; the `round(..., k)` / `int(...)` calls and the reason and
timestamp strings are display formatting for the sink and are not part
of the decision logic. -/
structure Row where
  ticker : String
  price : ℚ
  ema20 : ℚ
  sma50 : Option ℚ
  rsi14 : Option ℚ
  macdV : ℚ
  signalV : ℚ
  histV : ℚ
  histDelta : Option ℚ
  avgVol20 : ℚ
  high20 : ℚ
  isBreakout : Bool
  deriving DecidableEq, Repr

/-- Function `analyze_one` (`main.py` 179-247) with the network fetch abstracted
into the `df` argument (`fetch_daily_bars_df` returns `None` on failure
or missing data).  Returns `none` exactly when the Python function
returns `None`; a returned row is an emitted bullish row. -/
def analyzeOne (cfg : Config) (ticker : String) (df : Option (List Bar)) : Option Row :=
  match df with
  | none => none
  | some bars =>
    if bars.length < 60 then none
    else if (bars.getLastD default).volume ≤ 0 then none
    else if !trendGate bars then none
    else if !extensionGate cfg bars then none
    else if !rsiGate cfg bars then none
    else if !macdGate bars then none
    else if cfg.require20dHigh && !isBreakoutOf bars then none
    else some
      { ticker := ticker
        price := priceOf bars
        ema20 := ema20Of bars
        sma50 := sma50Of bars
        rsi14 := rsi14Of bars
        macdV := macdVOf bars
        signalV := signalVOf bars
        histV := histVOf bars
        histDelta := histDeltaOf bars
        avgVol20 := avgVol20Of bars
        high20 := high20Of bars
        isBreakout := isBreakoutOf bars }

/-! ### Universe builder (`main.py` 79-129 and 252-287) -/

/-- One metadata record as normalised by `fetch_all_polygon_meta`
(lines 86-91): ticker plus uppercased type and primary exchange. -/
structure TickerMeta where
  ticker : String
  type : String
  primaryExchange : String
  deriving DecidableEq, Repr

/-- Helper of `dedupMeta`: keeps a record when its ticker is nonempty
(`if t`) and unseen, first occurrence wins (lines 96-100). -/
def dedupMetaGo (seen : List String) : List TickerMeta → List TickerMeta
  | [] => []
  | m :: rest =>
    if m.ticker ≠ "" ∧ m.ticker ∉ seen then m :: dedupMetaGo (m.ticker :: seen) rest
    else dedupMetaGo seen rest

/-- The deduplication pass at the end of `fetch_all_polygon_meta`
(lines 96-102): first occurrence per ticker, discovery order kept. -/
def dedupMeta (out : List TickerMeta) : List TickerMeta := dedupMetaGo [] out

/-- Python `sorted(set(l))`: the distinct elements in ascending order. -/
def sortStrings (l : List String) : List String :=
  l.dedup.insertionSort (· ≤ ·)

/-- Python `all_tickers = sorted({m["ticker"] for m in meta if m["ticker"]})`
(line 258), the full-universe listing handed to `write_tickers_sheet`. -/
def allTickers (meta : List TickerMeta) : List String :=
  sortStrings ((meta.map TickerMeta.ticker).filter (fun t => t ≠ ""))

/-- One record of the grouped-daily response (`rec.get("T")`,
`rec.get("v", 0)`, `rec.get("c", 0.0)`, lines 119-122). -/
structure GroupedRec where
  T : String
  v : ℚ
  c : ℚ
  deriving DecidableEq, Repr

/-- The dict built on lines 118-122; records with a falsy (empty) ticker
are skipped.  A later record with the same key overwrites an earlier
one, so a lookup must return the last binding. -/
def buildGroupedMap (recs : List GroupedRec) : List (String × ℚ × ℚ) :=
  recs.filterMap (fun r => if r.T = "" then none else some (r.T, r.v, r.c))

/-- Python `grouped.get(t)`: dict lookup, i.e. the last binding of the key. -/
def lookupGrouped (m : List (String × ℚ × ℚ)) (t : String) : Option (ℚ × ℚ) :=
  (m.reverse.find? (fun p => p.1 == t)).map (fun p => p.2)

/-- Function `fetch_grouped_map` (`main.py` 110-129) over the list of probed
dates (5 of them, `last_trading_dates_utc`): each attempt either fails
(`none`, the `except` swallows it) or returns a result list; the first
nonempty result list is turned into the map and returned; if every
attempt fails or is empty, the empty map is returned with a warning. -/
def fetchGroupedMap : List (Option (List GroupedRec)) → List (String × ℚ × ℚ)
  | [] => []
  | none :: rest => fetchGroupedMap rest
  | some [] :: rest => fetchGroupedMap rest
  | some (r :: rs) :: _ => buildGroupedMap (r :: rs)

/-- The type/exchange classify filter of the main loop (lines 266-271):
nonempty ticker, type and exchange; type not excluded and included;
exchange allowed. -/
def passesClassify (cfg : Config) (m : TickerMeta) : Bool :=
  !(m.ticker == "") && !(m.type == "") && !(m.primaryExchange == "") &&
    !(cfg.excludeTypes.contains m.type) && cfg.includeTypes.contains m.type &&
    cfg.allowedExchanges.contains m.primaryExchange

/-- The grouped prefilter of the main loop (lines 273-280), active only
when the grouped map is nonempty (`use_grouped = bool(grouped)`): the
ticker must be present with volume and close above the floors. -/
def passesGrouped (cfg : Config) (grouped : List (String × ℚ × ℚ)) (t : String) : Bool :=
  if grouped.isEmpty then true
  else
    match lookupGrouped grouped t with
    | none => false
    | some (v, c) => !(decide (v < cfg.minDailyVol)) && !(decide (c < cfg.minPrice))

/-- The `filtered` list as accumulated by the loop of lines 264-281,
before `sorted(set(...))`. -/
def mainFilteredRaw (cfg : Config) (grouped : List (String × ℚ × ℚ))
    (meta : List TickerMeta) : List String :=
  (meta.filter (fun m => passesClassify cfg m && passesGrouped cfg grouped m.ticker)).map
    TickerMeta.ticker

/-- Python `filtered = sorted(set(filtered))` (line 283): the analysis universe. -/
def mainFilteredUniverse (cfg : Config) (grouped : List (String × ℚ × ℚ))
    (meta : List TickerMeta) : List String :=
  sortStrings (mainFilteredRaw cfg grouped meta)

/-- Python `subset = filtered[:MAX_TICKERS]` applied to `sorted(set(filtered))`
(lines 283-286). -/
def analysisSubset (cfg : Config) (filtered : List String) : List String :=
  (sortStrings filtered).take cfg.maxTickers

/-! ### Process exit behaviour (`main.py` 17-19 and 299-305) -/

/-- Outcome of calling `main()`: normal return, or a raised exception. -/
inductive MainOutcome where
  | ok
  | raised (msg : String)
  deriving DecidableEq, Repr

/-- Exit status of the script.  If `POLYGON_API_KEY` (or `API_KEY`) is
absent, the module body raises `RuntimeError` (lines 17-19) outside any
handler, and an uncaught exception makes the interpreter exit with
status 1.  Otherwise `main()` runs inside the `try` of lines 299-305,
whose bare `except Exception` prints the error and the traceback and
falls off the end of the script, so the process exits with status 0
even when `main()` raised. -/
def scriptExitCode (apiKeyPresent : Bool) (outcome : MainOutcome) : ℕ :=
  if !apiKeyPresent then 1
  else
    match outcome with
    | .ok => 0
    | .raised _ => 0

/-! ### Concrete input data used by counterexamples and witnesses -/

/-- Closing prices of a synthetic uptrend: start 100000, alternately
multiplied by 1.01 and by 0.9935 (rounded down to an integer).  The
final bar is an up day and the 20-day high. -/
def lowVolCloses : List ℤ :=
  [100000, 101000, 100343, 101346, 100687, 101693, 101031, 102041, 101377, 102390,
   101724, 102741, 102073, 103093, 102422, 103446, 102773, 103800, 103125, 104156,
   103478, 104512, 103832, 104870, 104188, 105229, 104545, 105590, 104903, 105952,
   105263, 106315, 105623, 106679, 105985, 107044, 106348, 107411, 106712, 107779,
   107078, 108148, 107445, 108519, 107813, 108891, 108183, 109264, 108553, 109638,
   108925, 110014, 109298, 110390, 109672, 110768, 110048, 111148, 110425, 111529]

/-- Sixty bars of the synthetic uptrend with a constant volume of 1 share
per day (trailing 20-bar average volume 1, far below any floor). -/
def lowVolBars : List Bar :=
  lowVolCloses.map (fun c =>
    { high := (c : ℚ), low := (c : ℚ), close := (c : ℚ), volume := 1 })

/-- Closing prices of a sub-picodollar series (values are numerators
over 10^19): flat, a four-day spike, a four-day crash 21 or more days
before the end, a flat shelf, and a final +13.5 percent jump.  At the
last bar every gate of `analyze_one` passes, while the true extension
`price/ema20 - 1` exceeds the allowed fraction; only the `1e-12`
denominator guard of line 215 lets the symbol through. -/
def tinyCloseNums : List ℤ :=
  [4000000, 4000000, 4000000, 4000000, 4000000, 4000000, 4000000, 4000000, 4000000, 4000000,
   4000000, 4000000, 4000000, 4000000, 4000000, 4000000, 4000000, 4000000, 4000000, 4000000,
   4000000, 4000000, 4000000, 4000000, 4000000, 4000000, 4000000, 4000000, 4000000, 4000000,
   4000000, 4760000, 5664400, 6740636, 8021356, 6898366, 5932594, 5102030, 4387745, 4387745,
   4387745, 4387745, 4387745, 4387745, 4387745, 4387745, 4387745, 4387745, 4387745, 4387745,
   4387745, 4387745, 4387745, 4387745, 4387745, 4387745, 4387745, 4387745, 4387745, 4980090]

/-- The sub-picodollar bars: closes of `tinyCloseNums` scaled by
10^(-19), ample volume. -/
def tinyScaleBars : List Bar :=
  tinyCloseNums.map (fun c =>
    { high := (c : ℚ) / 10 ^ 19, low := (c : ℚ) / 10 ^ 19,
      close := (c : ℚ) / 10 ^ 19, volume := 1000000 })

/-- Two metadata records arriving in discovery order B then A. -/
def twoPageMeta : List TickerMeta :=
  [{ ticker := "B", type := "CS", primaryExchange := "XNYS" },
   { ticker := "A", type := "CS", primaryExchange := "XNYS" }]

/-- Five probed dates that all fail or return no results. -/
def fiveFailedAttempts : List (Option (List GroupedRec)) :=
  [none, none, some [], none, none]

/-- A one-element metadata universe passing the classify filter. -/
def oneMeta : List TickerMeta :=
  [{ ticker := "AAA", type := "CS", primaryExchange := "XNYS" }]

/-- A one-entry grouped snapshot above both floors. -/
def oneGrouped : List (String × ℚ × ℚ) := [("AAA", 500000, 5)]

/-- A single flat bar. -/
def singleBar : List Bar := [{ high := 10, low := 10, close := 10, volume := 1000 }]

/-! ## Helper lemmas -/

theorem mem_sortStrings {t : String} {l : List String} :
    t ∈ sortStrings l ↔ t ∈ l := by
  unfold sortStrings
  rw [(List.perm_insertionSort _ _).mem_iff, List.mem_dedup]

theorem sorted_sortStrings (l : List String) :
    List.Sorted (· ≤ ·) (sortStrings l) :=
  List.sorted_insertionSort _ _

theorem nodup_sortStrings (l : List String) : (sortStrings l).Nodup :=
  ((List.perm_insertionSort _ _).nodup_iff).mpr l.nodup_dedup

theorem length_sortStrings (l : List String) :
    (sortStrings l).length = l.toFinset.card := by
  simp [sortStrings, List.length_insertionSort, List.card_toFinset]

theorem sortStrings_eq_of_toFinset_eq {l₁ l₂ : List String}
    (h : l₁.toFinset = l₂.toFinset) : sortStrings l₁ = sortStrings l₂ := by
  refine List.eq_of_perm_of_sorted ?_ (sorted_sortStrings l₁) (sorted_sortStrings l₂)
  exact ((List.perm_insertionSort _ _).trans
    (List.toFinset_eq_iff_perm_dedup.mp h)).trans (List.perm_insertionSort _ _).symm

theorem mem_mainFilteredUniverse {cfg : Config} {grouped : List (String × ℚ × ℚ)}
    {meta : List TickerMeta} {t : String} :
    t ∈ mainFilteredUniverse cfg grouped meta ↔
      ∃ m ∈ meta, (passesClassify cfg m && passesGrouped cfg grouped m.ticker) = true ∧
        m.ticker = t := by
  unfold mainFilteredUniverse mainFilteredRaw
  rw [mem_sortStrings, List.mem_map]
  constructor
  · rintro ⟨m, hm, rfl⟩
    rw [List.mem_filter] at hm
    exact ⟨m, hm.1, hm.2, rfl⟩
  · rintro ⟨m, hm, hp, rfl⟩
    exact ⟨m, List.mem_filter.mpr ⟨hm, hp⟩, rfl⟩

theorem ewmFoldl_nonneg (a : ℚ) (h0 : 0 ≤ a) (h1 : a ≤ 1) (xs : List ℚ) :
    ∀ s : ℚ, 0 ≤ s → (∀ x ∈ xs, 0 ≤ x) →
      0 ≤ xs.foldl (fun acc x => (1 - a) * acc + a * x) s := by
  induction xs with
  | nil => intro s hs _; simpa using hs
  | cons x xs ih =>
    intro s hs hxs
    simp only [List.foldl_cons]
    refine ih _ ?_ (fun y hy => hxs y (by simp [hy]))
    have hx : 0 ≤ x := hxs x (by simp)
    have h1a : 0 ≤ 1 - a := by linarith
    exact add_nonneg (mul_nonneg h1a hs) (mul_nonneg h0 hx)

theorem ewmFoldl_eq_zero_iff (a : ℚ) (h0 : 0 < a) (h1 : a < 1) (xs : List ℚ) :
    ∀ s : ℚ, 0 ≤ s → (∀ x ∈ xs, 0 ≤ x) →
      (xs.foldl (fun acc x => (1 - a) * acc + a * x) s = 0 ↔ s = 0 ∧ ∀ x ∈ xs, x = 0) := by
  induction xs with
  | nil => intro s _ _; simp
  | cons x xs ih =>
    intro s hs hxs
    have hx : 0 ≤ x := hxs x (by simp)
    have h1a : 0 < 1 - a := by linarith
    have hstep : 0 ≤ (1 - a) * s + a * x :=
      add_nonneg (mul_nonneg h1a.le hs) (mul_nonneg h0.le hx)
    simp only [List.foldl_cons]
    rw [ih _ hstep (fun y hy => hxs y (by simp [hy]))]
    constructor
    · rintro ⟨hz, hall⟩
      have hs0 : (1 - a) * s = 0 ∧ a * x = 0 := by
        constructor <;> nlinarith [mul_nonneg h1a.le hs, mul_nonneg h0.le hx]
      have hseed : s = 0 := by
        rcases mul_eq_zero.mp hs0.1 with h | h
        · exact absurd h (by linarith)
        · exact h
      have hxz : x = 0 := by
        rcases mul_eq_zero.mp hs0.2 with h | h
        · exact absurd h (by linarith)
        · exact h
      exact ⟨hseed, by intro y hy; rcases List.mem_cons.mp hy with rfl | hy
                       exacts [hxz, hall y hy]⟩
    · rintro ⟨rfl, hall⟩
      have hxz : x = 0 := hall x (by simp)
      exact ⟨by rw [hxz]; ring, fun y hy => hall y (by simp [hy])⟩

theorem length_deltas (xs : List ℚ) : (deltas xs).length = xs.length - 1 := by
  simp only [deltas, List.length_map, List.length_zip, List.length_tail]
  omega

theorem le_foldl_max (l : List ℚ) : ∀ s : ℚ, s ≤ l.foldl max s := by
  induction l with
  | nil => intro s; simp
  | cons x t ih =>
    intro s
    simp only [List.foldl_cons]
    exact le_trans (le_max_left s x) (ih (max s x))

theorem mem_le_foldl_max (l : List ℚ) : ∀ (s x : ℚ), x ∈ l → x ≤ l.foldl max s := by
  induction l with
  | nil => intro s x h; simp at h
  | cons z u ih =>
    intro s x h
    simp only [List.foldl_cons]
    rcases List.mem_cons.mp h with rfl | hx
    · exact le_trans (le_max_right s x) (le_foldl_max u _)
    · exact ih _ x hx

theorem le_listMax_of_mem {x : ℚ} {l : List ℚ} (h : x ∈ l) : x ≤ listMax l := by
  match l, h with
  | (y :: t), h =>
    simp only [listMax]
    rcases List.mem_cons.mp h with rfl | hx
    · exact le_foldl_max t x
    · exact mem_le_foldl_max t y x hx

theorem getLastD_drop_of_lt (l : List ℚ) (k : ℕ) (hk : k < l.length) (d : ℚ) :
    (l.drop k).getLastD d = l.getLastD d := by
  induction l generalizing k with
  | nil => simp at hk
  | cons x t ih =>
    cases k with
    | zero => simp
    | succ k =>
      simp only [List.length_cons, Nat.succ_lt_succ_iff] at hk
      simp only [List.drop_succ_cons]
      rw [ih k hk]
      cases t with
      | nil => simp at hk
      | cons y u =>
        simp [List.getLastD_cons, List.getLastD_eq_getLast?]

theorem getLastD_mem (l : List ℚ) (hne : l ≠ []) (d : ℚ) : l.getLastD d ∈ l := by
  cases l with
  | nil => exact absurd rfl hne
  | cons x t =>
    cases t with
    | nil => simp
    | cons y u =>
      rw [List.getLastD_cons, List.getLastD_eq_getLast?,
          List.getLast?_eq_getLast _ (List.cons_ne_nil y u)]
      simp only [Option.getD_some]
      exact List.mem_cons_of_mem x (List.getLast_mem _)

theorem priceOf_mem_takeLast (bars : List Bar) (hne : bars ≠ []) :
    priceOf bars ∈ takeLast 20 (closesOf bars) := by
  have hlen : 0 < (closesOf bars).length := by
    simp only [closesOf, List.length_map]
    exact List.length_pos.mpr hne
  have hk : (closesOf bars).length - 20 < (closesOf bars).length := by omega
  have hdrop : (closesOf bars).drop ((closesOf bars).length - 20) ≠ [] := by
    intro h
    have := congrArg List.length h
    simp only [List.length_drop, List.length_nil] at this
    omega
  unfold priceOf takeLast
  rw [← getLastD_drop_of_lt (closesOf bars) ((closesOf bars).length - 20) hk 0]
  exact getLastD_mem _ hdrop 0

theorem rd_seed_nonneg (d : ℚ) : 0 ≤ max (-d) 0 := le_max_right _ _

theorem gains_mem_nonneg {x : ℚ} {ds : List ℚ} (f : ℚ → ℚ) (hf : ∀ y, 0 ≤ f y)
    (hx : x ∈ ds.map f) : 0 ≤ x := by
  obtain ⟨y, _, rfl⟩ := List.mem_map.mp hx
  exact hf y

/-- The `analyze_one` decision, characterised: a row is emitted exactly
when the series is long enough, the last bar traded, and the trend,
extension, RSI, MACD and (when required) breakout gates all hold.  This
is the full list of conditions in lines 181-222; note there is no
condition on `avg_vol20`. -/
theorem analyzeOne_isSome_iff (cfg : Config) (t : String) (bars : List Bar) :
    (analyzeOne cfg t (some bars)).isSome = true ↔
      (60 ≤ bars.length ∧ 0 < (bars.getLastD default).volume ∧
       trendGate bars = true ∧ extensionGate cfg bars = true ∧
       rsiGate cfg bars = true ∧ macdGate bars = true ∧
       (cfg.require20dHigh = true → isBreakoutOf bars = true)) := by
  show (if bars.length < 60 then none
    else if (bars.getLastD default).volume ≤ 0 then none
    else if !trendGate bars then none
    else if !extensionGate cfg bars then none
    else if !rsiGate cfg bars then none
    else if !macdGate bars then none
    else if cfg.require20dHigh && !isBreakoutOf bars then (none : Option Row)
    else some
      { ticker := t
        price := priceOf bars
        ema20 := ema20Of bars
        sma50 := sma50Of bars
        rsi14 := rsi14Of bars
        macdV := macdVOf bars
        signalV := signalVOf bars
        histV := histVOf bars
        histDelta := histDeltaOf bars
        avgVol20 := avgVol20Of bars
        high20 := high20Of bars
        isBreakout := isBreakoutOf bars }).isSome = true ↔ _
  split_ifs with h1 h2 h3 h4 h5 h6 h7 <;> simp_all

/-- Claim C2 (amended).  For every series with at least two points the
`rsi` computation is total (no division error is possible), but a zero
smoothed loss does not saturate at 100: because line 158 replaces the
zero by NaN, the final RSI is unavailable (`none`) exactly when every
delta is non-negative; whenever some delta is negative the final value
is defined and lies in the interval [0, 100). -/
theorem rsi_defined_bounds (xs : List ℚ) (h2 : 2 ≤ xs.length) :
    ((∀ d ∈ deltas xs, 0 ≤ d) → rsiLast 14 xs = none) ∧
    ((∃ d ∈ deltas xs, d < 0) →
      ∃ r, rsiLast 14 xs = some r ∧ 0 ≤ r ∧ r < 100) := by
  obtain ⟨d, ds, hds⟩ : ∃ d ds, deltas xs = d :: ds := by
    have hl := length_deltas xs
    cases h : deltas xs with
    | nil => rw [h] at hl; simp at hl; omega
    | cons d ds => exact ⟨d, ds, rfl⟩
  have hmain : rsiLast 14 xs =
      (if (ds.map (fun e => max (-e) 0)).foldl
            (fun acc x => (1 - 1 / 14) * acc + 1 / 14 * x) (max (-d) 0) = 0 then none
       else some (100 - 100 /
         (1 + (ds.map (fun e => max e 0)).foldl
               (fun acc x => (1 - 1 / 14) * acc + 1 / 14 * x) (max d 0) /
             (ds.map (fun e => max (-e) 0)).foldl
               (fun acc x => (1 - 1 / 14) * acc + 1 / 14 * x) (max (-d) 0)))) := by
    simp only [rsiLast, hds, List.map_cons, ewmAlphaLast]
  set ru := (ds.map (fun e => max e 0)).foldl
      (fun acc x => (1 - 1 / 14) * acc + 1 / 14 * x) (max d 0) with hru_def
  set rd := (ds.map (fun e => max (-e) 0)).foldl
      (fun acc x => (1 - 1 / 14) * acc + 1 / 14 * x) (max (-d) 0) with hrd_def
  have hrun : 0 ≤ ru := by
    rw [hru_def]
    exact ewmFoldl_nonneg _ (by norm_num) (by norm_num) _ _ (le_max_right _ _)
      (fun x hx => gains_mem_nonneg _ (fun y => le_max_right _ _) hx)
  have hrdn : 0 ≤ rd := by
    rw [hrd_def]
    exact ewmFoldl_nonneg _ (by norm_num) (by norm_num) _ _ (le_max_right _ _)
      (fun x hx => gains_mem_nonneg _ (fun y => le_max_right _ _) hx)
  have hzero : rd = 0 ↔ (0 ≤ d ∧ ∀ e ∈ ds, 0 ≤ e) := by
    rw [hrd_def, ewmFoldl_eq_zero_iff _ (by norm_num) (by norm_num) _ _ (le_max_right _ _)
      (fun x hx => gains_mem_nonneg _ (fun y => le_max_right _ _) hx)]
    constructor
    · rintro ⟨hseed, hall⟩
      refine ⟨?_, ?_⟩
      · by_contra hdneg
        push_neg at hdneg
        rw [max_eq_left (by linarith : (0 : ℚ) ≤ -d)] at hseed
        linarith
      · intro e he
        have hm := hall (max (-e) 0) (List.mem_map.mpr ⟨e, he, rfl⟩)
        by_contra heneg
        push_neg at heneg
        rw [max_eq_left (by linarith : (0 : ℚ) ≤ -e)] at hm
        linarith
    · rintro ⟨hd0, hall⟩
      refine ⟨max_eq_right (by linarith), ?_⟩
      intro x hx
      obtain ⟨e, he, rfl⟩ := List.mem_map.mp hx
      exact max_eq_right (by linarith [hall e he])
  constructor
  · intro hnonneg
    rw [hmain, if_pos]
    rw [hzero]
    exact ⟨hnonneg d (by rw [hds]; simp),
      fun e he => hnonneg e (by rw [hds]; simp [he])⟩
  · rintro ⟨d0, hd0mem, hd0neg⟩
    have hrdne : rd ≠ 0 := by
      intro hz
      rw [hzero] at hz
      obtain ⟨hd, hall⟩ := hz
      rw [hds] at hd0mem
      rcases List.mem_cons.mp hd0mem with rfl | hmem
      · linarith
      · linarith [hall d0 hmem]
    have hrdpos : 0 < rd := lt_of_le_of_ne hrdn (Ne.symm hrdne)
    rw [hmain, if_neg hrdne]
    have hrs : 0 ≤ ru / rd := div_nonneg hrun hrdpos.le
    have hpos : 0 < 1 + ru / rd := by linarith
    refine ⟨_, rfl, ?_, ?_⟩
    · have hle : 100 / (1 + ru / rd) ≤ 100 := by
        rw [div_le_iff₀ hpos]; nlinarith
      linarith
    · have hlt : 0 < 100 / (1 + ru / rd) := div_pos (by norm_num) hpos
      linarith

/-- Claim C1 (amended).  A bullish row is emitted exactly when every
implemented gate passes: at least 60 bars, positive last-bar volume, the
trend, extension, RSI and MACD gates, and the breakout gate when
required.  The trailing 20-bar average volume is not among the gates:
`avg_vol20` is computed only for display, so no liquidity gate exists. -/
theorem analyzeOne_bullish_iff_gates (cfg : Config) (t : String) (bars : List Bar) :
    (analyzeOne cfg t (some bars)).isSome = true ↔
      (60 ≤ bars.length ∧ 0 < (bars.getLastD default).volume ∧
       trendGate bars = true ∧ extensionGate cfg bars = true ∧
       rsiGate cfg bars = true ∧ macdGate bars = true ∧
       (cfg.require20dHigh = true → isBreakoutOf bars = true)) :=
  analyzeOne_isSome_iff cfg t bars

/-- Claim C3 (amended).  The full-universe listing handed to the sink
contains each nonempty ticker exactly once, but in ascending
alphabetical order rather than first-seen order (line 258 sorts the
set). -/
theorem allTickers_each_once_sorted (meta : List TickerMeta) :
    (allTickers meta).Nodup ∧ List.Sorted (· ≤ ·) (allTickers meta) ∧
      ∀ t, (t ∈ allTickers meta ↔ t ≠ "" ∧ ∃ m ∈ meta, TickerMeta.ticker m = t) := by
  refine ⟨nodup_sortStrings _, sorted_sortStrings _, fun t => ?_⟩
  unfold allTickers
  rw [mem_sortStrings, List.mem_filter, List.mem_map]
  simp only [ne_eq, decide_not, Bool.not_eq_true', decide_eq_false_iff_not]
  constructor
  · rintro ⟨⟨m, hm, rfl⟩, hne⟩
    exact ⟨hne, m, hm, rfl⟩
  · rintro ⟨hne, m, hm, rfl⟩
    exact ⟨⟨m, hm, rfl⟩, hne⟩

/-- Claim C4.  A missing API key raises at module scope, outside any
handler, so that run exits nonzero; but any exception raised inside
`main()` — for example the `TypeError` from `json.loads(None)` when
`GOOGLE_CREDS_JSON` is unset — is caught by the bare `except` of lines
299-305, which prints the error and traceback and then lets the script
end normally, so the process exits with status 0, not nonzero. -/
theorem scriptExitCode_fatal_paths :
    scriptExitCode true (MainOutcome.raised "TypeError from json.loads, GOOGLE_CREDS_JSON unset") = 0 ∧
    scriptExitCode false MainOutcome.ok = 1 :=
  ⟨rfl, rfl⟩

/-- Claim C5.  When the bar fetch fails (`None`) or returns fewer than
60 bars, `analyze_one` returns `None` at line 181-182 and the symbol is
never marked bullish. -/
theorem analyzeOne_insufficient_data_none (cfg : Config) (t : String)
    (df : Option (List Bar))
    (h : df = none ∨ ∃ bars, df = some bars ∧ bars.length < 60) :
    analyzeOne cfg t df = none := by
  rcases h with rfl | ⟨bars, rfl, hlen⟩
  · rfl
  · simp [analyzeOne, if_pos hlen]

/-- Claim C7 (amended).  An emitted row satisfies the extension gate in
the form actually coded on line 215, with the `1e-12` guard in the
denominator: `price / max(1e-12, ema20) - 1 ≤ allowed_ext`.  The allowed
fraction itself is `max(static cap, EXT_ATR_MULT * ATR20 / ema20)` when
dynamic mode is on, the ATR is defined and `ema20 > 0`, and the static
cap alone otherwise. -/
theorem analyzeOne_extension_bound (cfg : Config) (t : String) (bars : List Bar)
    (h : (analyzeOne cfg t (some bars)).isSome = true) :
    priceOf bars / max (1 / 10 ^ 12) (ema20Of bars) - 1 ≤ allowedExtOf cfg bars ∧
    (∀ a, cfg.dynamicExtension = true → atr20Of bars = some a → 0 < ema20Of bars →
      allowedExtOf cfg bars =
        max cfg.maxExtAboveEma20Pct (cfg.extAtrMult * a / ema20Of bars)) ∧
    (cfg.dynamicExtension = false → allowedExtOf cfg bars = cfg.maxExtAboveEma20Pct) ∧
    (atr20Of bars = none → allowedExtOf cfg bars = cfg.maxExtAboveEma20Pct) := by
  refine ⟨?_, ?_, ?_, ?_⟩
  · have hg := ((analyzeOne_isSome_iff cfg t bars).mp h).2.2.2.1
    unfold extensionGate at hg
    rw [decide_eq_true_iff] at hg
    exact le_of_not_lt hg
  · intro a hdyn hatr hema
    unfold allowedExtOf
    rw [hdyn, hatr]
    simp [if_pos hema]
  · intro hdyn
    unfold allowedExtOf
    rw [hdyn]
    simp
  · intro hatr
    unfold allowedExtOf
    rw [hatr]
    cases cfg.dynamicExtension <;> simp

/-- Claim C6.  If all five probed dates fail or return no data, the
grouped map is empty, the run continues, and the filtered universe is
exactly the set of tickers passing the type/exchange classify filter:
the liquidity/price prefilter stage imposes no further reduction. -/
theorem grouped_unavailable_prefilter_skipped
    (attempts : List (Option (List GroupedRec))) (cfg : Config) (meta : List TickerMeta)
    (h : ∀ a ∈ attempts, a = none ∨ a = some []) :
    fetchGroupedMap attempts = [] ∧
    ∀ t, (t ∈ mainFilteredUniverse cfg (fetchGroupedMap attempts) meta ↔
      ∃ m ∈ meta, passesClassify cfg m = true ∧ m.ticker = t) := by
  have hempty : ∀ (l : List (Option (List GroupedRec))),
      (∀ a ∈ l, a = none ∨ a = some []) → fetchGroupedMap l = [] := by
    intro l
    induction l with
    | nil => intro _; rfl
    | cons a rest ih =>
      intro hl
      rcases hl a (by simp) with rfl | rfl
      · simpa [fetchGroupedMap] using ih (fun b hb => hl b (by simp [hb]))
      · simpa [fetchGroupedMap] using ih (fun b hb => hl b (by simp [hb]))
  have he := hempty attempts h
  refine ⟨he, fun t => ?_⟩
  rw [he, mem_mainFilteredUniverse]
  constructor
  · rintro ⟨m, hm, hp, rfl⟩
    rw [Bool.and_eq_true] at hp
    exact ⟨m, hm, hp.1, rfl⟩
  · rintro ⟨m, hm, hp, rfl⟩
    refine ⟨m, hm, ?_, rfl⟩
    rw [Bool.and_eq_true]
    exact ⟨hp, by simp [passesGrouped]⟩

/-- Claim C8.  The analysed subset is the first `min(MAX_TICKERS, size)`
symbols of the filtered universe in ascending order: its length is that
minimum, it is sorted, every selected symbol precedes every excluded
one, and it depends only on the universe as a set, so repeated runs over
an unchanged universe select the same subset. -/
theorem analysisSubset_spec (cfg : Config) (l₁ l₂ : List String) :
    (analysisSubset cfg l₁).length = min cfg.maxTickers l₁.toFinset.card ∧
    List.Sorted (· ≤ ·) (analysisSubset cfg l₁) ∧
    (∀ x ∈ analysisSubset cfg l₁, ∀ y ∈ l₁, y ∉ analysisSubset cfg l₁ → x ≤ y) ∧
    (l₁.toFinset = l₂.toFinset → analysisSubset cfg l₁ = analysisSubset cfg l₂) := by
  refine ⟨?_, ?_, ?_, fun h => ?_⟩
  · unfold analysisSubset
    rw [List.length_take, length_sortStrings]
  · exact (sorted_sortStrings l₁).sublist (List.take_sublist _ _)
  · intro x hx y hy hyn
    have hsplit := (List.take_append_drop cfg.maxTickers (sortStrings l₁)).symm
    have hsort := sorted_sortStrings l₁
    rw [List.Sorted, hsplit, List.pairwise_append] at hsort
    have hyd : y ∈ (sortStrings l₁).drop cfg.maxTickers := by
      have hys : y ∈ sortStrings l₁ := mem_sortStrings.mpr hy
      rw [hsplit, List.mem_append] at hys
      rcases hys with htk | hdr
      · exact absurd htk hyn
      · exact hdr
    exact hsort.2.2 x hx y hyd
  · unfold analysisSubset
    rw [sortStrings_eq_of_toFinset_eq h]

/-- Claim C9.  The 20-day high of the breakout gate is the maximum of
the trailing 20 closes including the current bar, so the last close can
never strictly exceed it, and the breakout test of line 205 holds
exactly when the last close is within `1e-9` of that maximum. -/
theorem breakout_iff_near_high20 (bars : List Bar) (hne : bars ≠ []) :
    priceOf bars ≤ high20Of bars ∧
    (isBreakoutOf bars = true ↔ high20Of bars - priceOf bars ≤ 1 / 10 ^ 9) := by
  have hmem := priceOf_mem_takeLast bars hne
  have hle : priceOf bars ≤ high20Of bars := le_listMax_of_mem hmem
  refine ⟨hle, ?_⟩
  unfold isBreakoutOf
  rw [decide_eq_true_iff]
  constructor <;> intro h <;> linarith

/-- Claim C10.  When the grouped snapshot is nonempty, every ticker in
the filtered universe is present in it with volume and close at or
above the floors; a ticker absent from the snapshot is dropped. -/
theorem filtered_member_meets_floors (cfg : Config) (grouped : List (String × ℚ × ℚ))
    (meta : List TickerMeta) (t : String) (hg : grouped ≠ []) :
    (t ∈ mainFilteredUniverse cfg grouped meta →
      ∃ vc, lookupGrouped grouped t = some vc ∧
        cfg.minDailyVol ≤ vc.1 ∧ cfg.minPrice ≤ vc.2) ∧
    (lookupGrouped grouped t = none → t ∉ mainFilteredUniverse cfg grouped meta) := by
  have hie : grouped.isEmpty = false := by
    cases grouped with
    | nil => exact absurd rfl hg
    | cons p l => rfl
  have hpass : passesGrouped cfg grouped t = true →
      ∃ vc, lookupGrouped grouped t = some vc ∧
        cfg.minDailyVol ≤ vc.1 ∧ cfg.minPrice ≤ vc.2 := by
    intro hp
    unfold passesGrouped at hp
    rw [hie] at hp
    simp only [Bool.false_eq_true, if_false] at hp
    cases hl : lookupGrouped grouped t with
    | none => rw [hl] at hp; simp at hp
    | some vc =>
      rw [hl] at hp
      obtain ⟨v, c⟩ := vc
      rw [Bool.and_eq_true] at hp
      refine ⟨(v, c), rfl, ?_, ?_⟩
      · have := hp.1
        simp only [Bool.not_eq_true', decide_eq_false_iff_not, not_lt] at this
        exact this
      · have := hp.2
        simp only [Bool.not_eq_true', decide_eq_false_iff_not, not_lt] at this
        exact this
  constructor
  · intro hmem
    obtain ⟨m, _, hp, rfl⟩ := mem_mainFilteredUniverse.mp hmem
    rw [Bool.and_eq_true] at hp
    exact hpass hp.2
  · intro hnone hmem
    obtain ⟨m, _, hp, rfl⟩ := mem_mainFilteredUniverse.mp hmem
    rw [Bool.and_eq_true] at hp
    obtain ⟨vc, hvc, _⟩ := hpass hp.2
    rw [hnone] at hvc
    exact Option.noConfusion hvc

/-! ## Concrete evaluations: counterexamples and witnesses

The rational-arithmetic primitives are sealed behind `irreducible` in
the library; they are made semireducible locally so that `decide` can
evaluate the pipeline on the concrete series above. -/

section ConcreteEvaluations

attribute [local semireducible] Rat.add Rat.mul Rat.sub Rat.inv

set_option maxRecDepth 100000 in
/-- Claim C1, counterexample.  On `lowVolBars` every implemented gate
passes and a bullish row is emitted whose trailing 20-bar average
volume is 1, far below the configured floor of 300000: no liquidity
gate exists. -/
theorem avgVol20_below_floor_still_bullish :
    (analyzeOne defaultConfig "LOWVOL" (some lowVolBars)).map Row.avgVol20 = some 1 ∧
    (1 : ℚ) < defaultConfig.minDailyVol := by
  constructor
  · decide
  · decide

set_option maxRecDepth 100000 in
/-- Claim C1, witness: the gate characterisation instantiated on the
emitted low-volume series. -/
theorem analyzeOne_bullish_iff_gates_witness :
    (analyzeOne defaultConfig "LOWVOL" (some lowVolBars)).isSome = true :=
  (analyzeOne_bullish_iff_gates defaultConfig "LOWVOL" lowVolBars).mpr (by decide)

/-- Claim C2, counterexample.  On the two-point series [1, 2] every
delta is non-negative, and the final RSI is unavailable (pandas NaN,
from `.replace(0, np.nan)` on the zero smoothed loss) instead of the
claimed saturation value 100, hence also not a value inside [0, 100]. -/
theorem rsi_all_gains_is_none : rsiLast 14 [(1 : ℚ), 2] = none := by decide

/-- Claim C2, witness: on [2, 1, 3] some delta is negative and the
final RSI is a defined value inside [0, 100). -/
theorem rsi_defined_bounds_witness :
    ∃ r, rsiLast 14 [(2 : ℚ), 1, 3] = some r ∧ 0 ≤ r ∧ r < 100 :=
  (rsi_defined_bounds [(2 : ℚ), 1, 3] (by norm_num)).2 (by decide)

/-- Claim C3, counterexample.  With records discovered in the order
B, A, the deduplicated metadata keeps discovery order B, A, but the
listing handed to the sink is the sorted list A, B — not first-seen
order. -/
theorem allTickers_not_discovery_order :
    allTickers twoPageMeta = ["A", "B"] ∧
    (dedupMeta twoPageMeta).map TickerMeta.ticker = ["B", "A"] ∧
    (["A", "B"] : List String) ≠ ["B", "A"] := by
  refine ⟨?_, by decide, by decide⟩
  show sortStrings ((twoPageMeta.map TickerMeta.ticker).filter (fun t => t ≠ "")) = _
  have hfilter : (twoPageMeta.map TickerMeta.ticker).filter (fun t => t ≠ "") = ["B", "A"] := by
    decide
  rw [hfilter]
  show List.insertionSort (· ≤ ·) (["B", "A"] : List String).dedup = _
  have hdedup : (["B", "A"] : List String).dedup = ["B", "A"] := by decide
  rw [hdedup]
  simp only [List.insertionSort, List.orderedInsert]
  have hBA : ¬ (("B" : String) ≤ "A") := by
    simp only [String.le_iff_toList_le, String.toList]
    decide
  rw [if_neg hBA]

/-- Claim C5, witness: a 59-bar series is rejected. -/
theorem analyzeOne_insufficient_data_none_witness :
    analyzeOne defaultConfig "AAA"
      (some (List.replicate 59 ({ high := 10, low := 10, close := 10, volume := 1000 } : Bar)))
      = none :=
  analyzeOne_insufficient_data_none defaultConfig "AAA" _
    (Or.inr ⟨_, rfl, by norm_num [List.length_replicate]⟩)

/-- Claim C6, witness: five failed probes produce the empty map, and a
classify-passing ticker stays in the universe. -/
theorem grouped_unavailable_prefilter_skipped_witness :
    fetchGroupedMap fiveFailedAttempts = [] ∧
    ("AAA" ∈ mainFilteredUniverse defaultConfig (fetchGroupedMap fiveFailedAttempts) oneMeta ↔
      ∃ m ∈ oneMeta, passesClassify defaultConfig m = true ∧ m.ticker = "AAA") :=
  ⟨(grouped_unavailable_prefilter_skipped fiveFailedAttempts defaultConfig oneMeta
      (by decide)).1,
   (grouped_unavailable_prefilter_skipped fiveFailedAttempts defaultConfig oneMeta
      (by decide)).2 "AAA"⟩

set_option maxRecDepth 100000 in
/-- Claim C7, counterexample.  On the sub-picodollar series, dynamic
extension is on, ATR20 is defined and `ema20 > 0`, and the true
extension `price/ema20 - 1` exceeds the allowed fraction, yet a bullish
row is emitted: line 215 divides by `max(1e-12, ema20)`, and here
`ema20 < 1e-12`, so the coded ratio stays under the cap. -/
theorem extension_guard_tiny_ema_bullish :
    defaultConfig.dynamicExtension = true ∧
    (atr20Of tinyScaleBars).isSome = true ∧
    0 < ema20Of tinyScaleBars ∧
    priceOf tinyScaleBars / ema20Of tinyScaleBars - 1 >
      allowedExtOf defaultConfig tinyScaleBars ∧
    (analyzeOne defaultConfig "TINY" (some tinyScaleBars)).isSome = true := by
  decide

set_option maxRecDepth 100000 in
/-- Claim C7, witness: the coded extension bound instantiated on the
emitted low-volume series. -/
theorem analyzeOne_extension_bound_witness :
    priceOf lowVolBars / max (1 / 10 ^ 12) (ema20Of lowVolBars) - 1 ≤
      allowedExtOf defaultConfig lowVolBars :=
  (analyzeOne_extension_bound defaultConfig "LOWVOL" lowVolBars (by decide)).1

/-- Claim C8, witness: the subset of a universe given with a duplicate
and out of order equals the subset of the same universe given sorted. -/
theorem analysisSubset_spec_witness :
    (analysisSubset defaultConfig ["B", "A", "B"]).length =
      min defaultConfig.maxTickers (["B", "A", "B"] : List String).toFinset.card ∧
    List.Sorted (· ≤ ·) (analysisSubset defaultConfig ["B", "A", "B"]) ∧
    analysisSubset defaultConfig ["B", "A", "B"] = analysisSubset defaultConfig ["A", "B"] :=
  ⟨(analysisSubset_spec defaultConfig ["B", "A", "B"] ["A", "B"]).1,
   (analysisSubset_spec defaultConfig ["B", "A", "B"] ["A", "B"]).2.1,
   (analysisSubset_spec defaultConfig ["B", "A", "B"] ["A", "B"]).2.2.2 (by decide)⟩

/-- Claim C9, witness: the breakout characterisation on a one-bar
series. -/
theorem breakout_iff_near_high20_witness :
    priceOf singleBar ≤ high20Of singleBar ∧
    (isBreakoutOf singleBar = true ↔
      high20Of singleBar - priceOf singleBar ≤ 1 / 10 ^ 9) :=
  breakout_iff_near_high20 singleBar (by simp [singleBar])

/-- Claim C10, witness: the surviving ticker of the one-entry snapshot
meets both floors. -/
theorem filtered_member_meets_floors_witness :
    ∃ vc, lookupGrouped oneGrouped "AAA" = some vc ∧
      defaultConfig.minDailyVol ≤ vc.1 ∧ defaultConfig.minPrice ≤ vc.2 :=
  (filtered_member_meets_floors defaultConfig oneGrouped oneMeta "AAA"
      (by simp [oneGrouped])).1 (by decide)

end ConcreteEvaluations

end TradeFinder
